import Mathlib

/-!
Verification development for the r2-image-worker repository.

The repository is a Cloudflare Worker (Hono app) that uploads images into an
R2 bucket and serves them back over HTTP.  The definitions below are a shallow
embedding of the TypeScript source:

- src/src/index.ts        : the main worker (upload handler, GET/HEAD serve
                            handler with Range / If-None-Match support, helper
                            functions getContentType / getCacheControl /
                            streamToArrayBuffer) followed by a second variant
                            of the same worker (simplified GET handler whose
                            Cache-Control uses a 30-day max-age constant).
- src/unnamed/part_000    : a debugging variant of the worker whose upload
                            handler validates the image field and reports
                            store failures with exception details in the body.

JavaScript strings are modelled as Lean `String`, JavaScript numbers that the
code only ever produces from `parseInt` of digit groups as `Nat` (with `Int`
where the code can subtract below zero), absent values (`undefined`) as
`Option`, and thrown exceptions from store calls as `Except String`.
Truthiness of a JavaScript string (used by the source in several places) is
the string being non-empty.
-/

set_option autoImplicit false

/-- Prefix test on character lists (used to model JS `startsWith` and as the
single step of substring search). -/
def isPre : List Char → List Char → Bool
  | [], _ => true
  | _ :: _, [] => false
  | a :: as, b :: bs => a == b && isPre as bs

/-- Substring occurrence on character lists; models JS `String.includes` and
an unanchored regular-expression literal search. -/
def hasSub (pat : List Char) : List Char → Bool
  | [] => pat.isEmpty
  | c :: rest => isPre pat (c :: rest) || hasSub pat rest

/-- Substring occurrence on strings; models JS `key.includes(pat)`. -/
def hasSubStr (pat s : String) : Bool := hasSub pat.data s.data

/-- Models JS `s.startsWith(p)`. -/
def strStartsWith (s p : String) : Bool := isPre p.data s.data

/-- Models JS `s.endsWith(p)`. -/
def strEndsWith (s p : String) : Bool := isPre p.data.reverse s.data.reverse

/-- Models JS `String.prototype.split` with a single-character separator:
`"".split(sep)` is `[""]`, separators at the ends produce empty fragments. -/
def splitChar (sep : Char) : List Char → List (List Char)
  | [] => [[]]
  | c :: cs =>
    if c == sep then [] :: splitChar sep cs
    else
      match splitChar sep cs with
      | [] => [[c]]
      | h :: t => (c :: h) :: t

/-- String-level JS `split` on a single-character separator. -/
def jsSplit (s : String) (sep : Char) : List String :=
  (splitChar sep s.data).map String.mk

/-- Intercalation of character lists with a separator list. -/
def interc (sep : List Char) : List (List Char) → List Char
  | [] => []
  | [x] => x
  | x :: xs => x ++ sep ++ interc sep xs

/-- Models JS `Array.prototype.join` on strings. -/
def strJoin (sep : String) (parts : List String) : String :=
  ⟨interc sep.data (parts.map String.data)⟩

/-- ASCII lower-casing of a string; models JS `toLowerCase` for the ASCII
inputs the worker deals with (file extensions, User-Agent tokens). -/
def strLower (s : String) : String := ⟨s.data.map Char.toLower⟩

/-- Models JS `s.substring(0, n)`. -/
def strTake (s : String) (n : Nat) : String := ⟨s.data.take n⟩

/-- Truthiness of an optional JS string: `undefined` and `""` are falsy. -/
def truthyOpt : Option String → Bool
  | none => false
  | some s => s != ""

/-- Value of `parseInt(digits, 10)` for a non-empty digit group. -/
def digitsToNat (l : List Char) : Nat :=
  l.foldl (fun acc c => acc * 10 + (c.toNat - 48)) 0

/-- A single-quote character as a one-character string (used by the
Content-Disposition template in the source). -/
def squote : String := ⟨[Char.ofNat 39]⟩

/-- Key derivation of the upload handler, src/src/index.ts lines 69-98.
The SHA-256 digest of the uploaded bytes, the value of `Date.now()` and the
random base-36 suffix are injected as parameters (`digest`, `ts`, `rand`);
the handler uses `digest.substring(0, 8)`.  `width`/`height` are the optional
multipart string fields; the source guards the dimension step with JS
truthiness of both (`data.width && data.height`). -/
def deriveKey (name : String) (useSha useTs : Bool) (digest : String)
    (ts : Nat) (rand : String) (width height : Option String) : String :=
  let nameParts := jsSplit name '.'
  -- const extension = nameParts.pop() || defaulted to png when falsy
  let extension :=
    match nameParts.getLast? with
    | some e => if e == "" then "png" else e
    | none => "png"
  -- const basename = nameParts.join with dot   (after the pop)
  let basename := strJoin "." nameParts.dropLast
  -- let key = file.name, then the useSha256 || useTimestamp branch
  let key1 :=
    if useSha || useTs then
      let parts := [basename]
        ++ (if useSha then [strTake digest 8] else [])
        ++ (if useTs then [toString ts ++ "_" ++ rand] else [])
      strJoin "_" parts ++ "." ++ extension
    else name
  -- if (data.width && data.height) then re-split and insert the dimensions
  if truthyOpt width && truthyOpt height then
    let keyParts := jsSplit key1 '.'
    let ext2 := keyParts.getLastD ""
    let base2 := strJoin "." keyParts.dropLast
    base2 ++ "_" ++ width.getD "" ++ "x" ++ height.getD "" ++ "." ++ ext2
  else key1

/-- Extension-to-MIME lookup table of `getContentType`, src/src/index.ts
lines 241-253: `mimeTypes[ext]` with fallback `application/octet-stream`. -/
def mimeLookup (ext : String) : String :=
  if ext == "png" then "image/png"
  else if ext == "jpg" then "image/jpeg"
  else if ext == "jpeg" then "image/jpeg"
  else if ext == "gif" then "image/gif"
  else if ext == "webp" then "image/webp"
  else if ext == "svg" then "image/svg+xml"
  else if ext == "ico" then "image/x-icon"
  else if ext == "bmp" then "image/bmp"
  else if ext == "tiff" then "image/tiff"
  else if ext == "pdf" then "application/pdf"
  else "application/octet-stream"

/-- Helper `getContentType`, src/src/index.ts lines 239-254:
`key.split(dot).pop()?.toLowerCase()` fed into the MIME table (`split` never
yields an empty array, so the optional chain always produces a string). -/
def getContentType (key : String) : String :=
  mimeLookup (strLower ((jsSplit key '.').getLastD ""))

/-- Helper `getCacheControl`, src/src/index.ts lines 256-263. -/
def getCacheControl (key : String) : String :=
  if hasSubStr "screenshot_" key then "public, max-age=3600"
  else "public, max-age=31536000, immutable"

/-- Constant `maxAge` of the second worker variant, src/src/index.ts
line 299: `60 * 60 * 24 * 30`. -/
def maxAgeV2 : Nat := 60 * 60 * 24 * 30

/-- Cache-Control expression of the second worker variant GET handler,
src/src/index.ts line 483:
the template `public, max-age=` followed by `isScreenshot ? 3600 : maxAge`. -/
def cacheControlV2 (key : String) : String :=
  "public, max-age=" ++ toString (if hasSubStr "screenshot_" key then 3600 else maxAgeV2)

/-- Attempt to match the regular expression `bytes=(\d+)-(\d*)` anchored at
the head of `l`: the literal `bytes=`, then a non-empty greedy digit run,
then `-`, then a possibly empty digit run. -/
def tryRangeAt (l : List Char) : Option (List Char × List Char) :=
  if isPre "bytes=".data l then
    let r := l.drop 6
    let d1 := r.takeWhile Char.isDigit
    if d1.isEmpty then none
    else
      match r.drop d1.length with
      | [] => none
      | c :: r3 => if c == '-' then some (d1, r3.takeWhile Char.isDigit) else none
  else none

/-- Leftmost match of `bytes=(\d+)-(\d*)`: try each start position in turn,
as the (unanchored) regular expression in src/src/index.ts line 149 does. -/
def findRange : List Char → Option (List Char × List Char)
  | [] => none
  | c :: rest =>
    match tryRangeAt (c :: rest) with
    | some r => some r
    | none => findRange rest

/-- Range-header parse of the GET handler, src/src/index.ts lines 149-152:
the two digit groups of `bytes=(\d+)-(\d*)` through `parseInt`; the second
group is `undefined` when empty (JS truthiness of `matches[2]`). -/
def parseRange (s : String) : Option (Nat × Option Nat) :=
  match findRange s.data with
  | none => none
  | some (d1, d2) =>
    some (digitsToNat d1, if d2.isEmpty then none else some (digitsToNat d2))

/-- R2 object as seen by the worker: metadata plus (for `get` results) the
lazy body stream, which we model by its list of chunks.  `httpEtag` and
`etag` are the two validator fields the source consults; `contentType`
models `httpMetadata?.contentType` (`none` for absent metadata);
`uploadedUTC` models `object.uploaded.toUTCString()`; `hasBody` models the
test whether the field `body` is in the object. -/
structure R2Obj where
  size : Nat
  httpEtag : String
  etag : String
  contentType : Option String
  uploadedUTC : String
  hasBody : Bool
  chunks : List (List Nat)
deriving DecidableEq

/-- Range option passed to `BUCKET.get`, src/src/index.ts lines 154-156:
range option with fields offset = start and
length = `end ? end - start + 1 : undefined`. -/
structure RangeReq where
  offset : Nat
  length : Option Int
deriving DecidableEq

/-- Request data consumed by the GET branch of the serve handler: the raw
`Range` and `If-None-Match` and `User-Agent` headers (absent = `none`) and
the `download=true` query flag. -/
structure GetReq where
  rangeH : Option String
  inm : Option String
  ua : Option String
  download : Bool
deriving DecidableEq

/-- Response body: none (`c.body(null)`), a byte buffer, or text/JSON. -/
inductive RespBody where
  | empty : RespBody
  | bytes (data : List Nat) : RespBody
  | text (s : String) : RespBody
deriving DecidableEq

/-- HTTP response produced by a handler: status, headers set by the handler
(in order), and body.  CORS and cache middleware headers are outside the
modelled core. -/
structure HttpResponse where
  status : Nat
  headers : List (String × String)
  body : RespBody
deriving DecidableEq

/-- First value of a named response header, if the handler set it. -/
def headerVal (r : HttpResponse) (nm : String) : Option String :=
  (r.headers.find? (fun p => p.1 == nm)).map (fun p => p.2)

/-- Body text of a response (empty string for byte and empty bodies). -/
def respText (r : HttpResponse) : String :=
  match r.body with
  | RespBody.text s => s
  | _ => ""

/-- Response of the `app.notFound` handler, src/src/index.ts lines 228-230. -/
def notFoundResponse : HttpResponse :=
  ⟨404, [], RespBody.text "\x7b\"error\":\"Not Found\"\x7d"⟩

/-- Generic 500 response: produced by the catch block of the serve handler
(src/src/index.ts lines 221-224) and by `app.onError` (lines 233-236); the
body never depends on the thrown exception. -/
def internalErrorResponse : HttpResponse :=
  ⟨500, [], RespBody.text "\x7b\"error\":\"Internal Server Error\"\x7d"⟩

/-- Entity tag the handlers compare against:
`object.httpEtag || object.etag` (src/src/index.ts lines 120, 176). -/
def etagOf (o : R2Obj) : String :=
  if o.httpEtag != "" then o.httpEtag else o.etag

/-- Content-Type header value:
`object.httpMetadata?.contentType || getContentType(key)` (lines 127, 205). -/
def ctHeaderVal (o : R2Obj) (key : String) : String :=
  match o.contentType with
  | some t => if t == "" then getContentType key else t
  | none => getContentType key

/-- Mobile User-Agent test `/iPhone|iPad|iPod|Android/i.test(ua)`,
src/src/index.ts line 191: case-insensitive search for any of the four
ASCII tokens. -/
def isMobileUA (ua : String) : Bool :=
  let l := ua.data.map Char.toLower
  hasSub "iphone".data l || hasSub "ipad".data l ||
    hasSub "ipod".data l || hasSub "android".data l

/-- UTF-8 bytes of one code point (what `encodeURIComponent` percent-encodes
per character). -/
def utf8Bytes (c : Char) : List Nat :=
  let n := c.toNat
  if n < 128 then [n]
  else if n < 2048 then [192 ||| (n >>> 6), 128 ||| (n &&& 63)]
  else if n < 65536 then
    [224 ||| (n >>> 12), 128 ||| ((n >>> 6) &&& 63), 128 ||| (n &&& 63)]
  else
    [240 ||| (n >>> 18), 128 ||| ((n >>> 12) &&& 63),
      128 ||| ((n >>> 6) &&& 63), 128 ||| (n &&& 63)]

/-- Characters `encodeURIComponent` leaves unescaped:
`A-Z a-z 0-9 - _ . ! ~ *`, the single quote, and the parentheses. -/
def isUnreservedURI (c : Char) : Bool :=
  c.isAlpha || c.isDigit || c == '-' || c == '_' || c == '.' || c == '!' ||
    c == '~' || c == '*' || c == Char.ofNat 39 || c == '(' || c == ')'

/-- Upper-case hex digit of a value below 16. -/
def hexCh (n : Nat) : Char :=
  Char.ofNat (if n < 10 then 48 + n else 55 + n)

/-- Percent-encoding of one byte, upper-case hex. -/
def pctEncByte (b : Nat) : List Char :=
  ['%', hexCh (b / 16), hexCh (b % 16)]

/-- Model of JS `encodeURIComponent`: unreserved characters kept, every
other character replaced by the percent-encoding of its UTF-8 bytes. -/
def encodeURIComponent (s : String) : String :=
  ⟨s.data.flatMap fun c =>
    if isUnreservedURI c then [c] else (utf8Bytes c).flatMap pctEncByte⟩

/-- Filename used for Content-Disposition, src/src/index.ts line 201:
`key.split(slash).pop()` with the fallback `download`. -/
def dispFilename (key : String) : String :=
  let ls := (jsSplit key '/').getLastD ""
  if ls == "" then "download" else ls

/-- Content-Disposition header value of a successful GET, src/src/index.ts
lines 190-206: `attachment` when the download flag is set, or when the key
contains `screenshot_` and the User-Agent is mobile; otherwise `inline`;
followed by the plain and RFC 5987 filename parameters. -/
def contentDispositionValue (key : String) (download : Bool) (ua : String) : String :=
  let isScreenshot := hasSubStr "screenshot_" key
  let isMobile := isMobileUA ua
  let disp :=
    if download then "attachment"
    else if isScreenshot && isMobile then "attachment"
    else "inline"
  let filename := dispFilename key
  disp ++ "; filename=\"" ++ filename ++ "\"; filename*=UTF-8" ++ squote ++
    squote ++ encodeURIComponent filename

/-- One `result.set(chunk, offset)` step of `streamToArrayBuffer`:
overwrite `chunk.length` bytes of `res` starting at `off`. -/
def setRange (res : List Nat) (off : Nat) (chunk : List Nat) : List Nat :=
  res.take off ++ chunk ++ res.drop (off + chunk.length)

/-- The copy loop of `streamToArrayBuffer`, src/src/index.ts lines 279-282:
write each chunk at the running offset. -/
def writeChunks : List Nat → Nat → List (List Nat) → List Nat
  | res, _, [] => res
  | res, off, c :: cs => writeChunks (setRange res off c) (off + c.length) cs

/-- Helper `streamToArrayBuffer`, src/src/index.ts lines 265-285: drain the
stream into a chunk list (the reader loop yields exactly the stream chunks,
in order), allocate a zero-filled buffer of the summed length, and copy each
chunk at its offset. -/
def streamToArrayBuffer (chunks : List (List Nat)) : List Nat :=
  let totalLength := (chunks.map List.length).sum
  writeChunks (List.replicate totalLength 0) 0 chunks

/-- Fetch phase of the GET branch, src/src/index.ts lines 142-169: decide
which store call to make from the raw `Range` header, and compute the
status / Content-Range that the source sets when a ranged fetch returns an
object.  The store is a function from key and optional range to a possibly
thrown (`Except.error`) optional object; the test whether `size` is in the
object is always true
for an R2 object, so `totalSize` is the object size field. -/
def serveFetch (store : String → Option RangeReq → Except String (Option R2Obj))
    (key : String) (rangeH : Option String) :
    Except String (Option R2Obj × Nat × Option String) :=
  match rangeH with
  | none =>
    match store key none with
    | Except.error msg => Except.error msg
    | Except.ok ob => Except.ok (ob, 200, none)
  | some r =>
    if r != "" then
      match parseRange r with
      | some (start, endOpt) =>
        -- length: end ? end - start + 1 : undefined   (0 is falsy)
        let lengthOpt : Option Int :=
          match endOpt with
          | some e => if e != 0 then some ((e : Int) - (start : Int) + 1) else none
          | none => none
        match store key (some ⟨start, lengthOpt⟩) with
        | Except.error msg => Except.error msg
        | Except.ok (some o) =>
          -- contentRange: bytes, start, a dash, end || totalSize - 1, a
          -- slash, totalSize
          let totalSize := o.size
          let endVal : Int :=
            match endOpt with
            | some e => if e != 0 then (e : Int) else (totalSize : Int) - 1
            | none => (totalSize : Int) - 1
          Except.ok (some o, 206,
            some ("bytes " ++ toString start ++ "-" ++ toString endVal ++ "/" ++
              toString totalSize))
        | Except.ok none => Except.ok (none, 200, none)
      | none =>
        match store key none with
        | Except.error msg => Except.error msg
        | Except.ok ob => Except.ok (ob, 200, none)
    else
      match store key none with
      | Except.error msg => Except.error msg
      | Except.ok ob => Except.ok (ob, 200, none)

/-- GET branch of the serve handler, src/src/index.ts lines 106-225 (the
GET method path, including the surrounding try/catch that maps any
store exception to the generic 500 response). -/
def serveGet (store : String → Option RangeReq → Except String (Option R2Obj))
    (key : String) (req : GetReq) : HttpResponse :=
  match serveFetch store key req.rangeH with
  | Except.error _ => internalErrorResponse
  | Except.ok (none, _, _) => notFoundResponse
  | Except.ok (some o, status, contentRange) =>
    let etag := etagOf o
    if truthyOpt req.inm && (req.inm.getD "" == etag) then
      ⟨304, [], RespBody.empty⟩
    else if !o.hasBody then notFoundResponse
    else
      ⟨status,
        [("Content-Type", ctHeaderVal o key),
          ("Content-Disposition", contentDispositionValue key req.download (req.ua.getD "")),
          ("Cache-Control", getCacheControl key),
          ("ETag", etag),
          ("Last-Modified", o.uploadedUTC),
          ("Accept-Ranges", "bytes"),
          ("X-Content-Type-Options", "nosniff")] ++
          (match contentRange with
            | some cr => [("Content-Range", cr)]
            | none => []),
        RespBody.bytes (streamToArrayBuffer o.chunks)⟩

/-- HEAD branch of the serve handler, src/src/index.ts lines 112-135
(inside the same try/catch). -/
def serveHead (headStore : String → Except String (Option R2Obj))
    (key : String) (inm : Option String) : HttpResponse :=
  match headStore key with
  | Except.error _ => internalErrorResponse
  | Except.ok none => notFoundResponse
  | Except.ok (some o) =>
    let etag := etagOf o
    if truthyOpt inm && (inm.getD "" == etag) then
      ⟨304, [], RespBody.empty⟩
    else
      ⟨200,
        [("Content-Type", ctHeaderVal o key),
          ("Content-Length", toString o.size),
          ("Accept-Ranges", "bytes"),
          ("ETag", etag),
          ("Last-Modified", o.uploadedUTC),
          ("Cache-Control", getCacheControl key)],
        RespBody.empty⟩

/-- Uploaded file as the handlers see it: `file.name`, `file.type`, and the
byte size (which neither handler inspects). -/
structure FileModel where
  name : String
  ftype : String
  size : Nat
deriving DecidableEq

/-- Parsed multipart body of the upload request: `data.image` is absent when
the multipart payload has no `image` field. -/
structure UploadData where
  image : Option FileModel
  width : Option String
  height : Option String
  timestamp : Option String
  sha256f : Option String
deriving DecidableEq

/-- Upload handler of the main worker, src/src/index.ts lines 55-102.  The
handler reads `file.type` without checking `data.image`; on a missing image
field that JS property access throws, and the uncaught exception is mapped
by `app.onError` (lines 233-236) to the generic 500 response.  A failed
`BUCKET.put` (modelled by `putResult`) likewise reaches `app.onError`. -/
def uploadMain (data : UploadData) (digest : String) (ts : Nat) (rand : String)
    (putResult : Except String Unit) : HttpResponse :=
  match data.image with
  | none => internalErrorResponse
  | some file =>
    let useTs := data.timestamp == some "true"
    let useSha := data.sha256f == some "true"
    let key := deriveKey file.name useSha useTs digest ts rand data.width data.height
    match putResult with
    | Except.error _ => internalErrorResponse
    | Except.ok _ => ⟨200, [], RespBody.text key⟩

/-- Upload handler of the debugging variant, src/unnamed/part_000 lines
63-121: checks the bucket binding, reports parse failures as 400 with
details, returns 400 on a missing image field, uploads under a
`test_<now>_<name>` key, and reports a failed put as 500 with the exception
message in the `details` field of the JSON body. -/
def uploadDebug (bucketBound : Bool) (parsed : Except String UploadData)
    (ts : Nat) (putResult : Except String Unit) : HttpResponse :=
  if !bucketBound then
    ⟨500, [], RespBody.text "\x7b\"error\":\"BUCKET not configured\"\x7d"⟩
  else
    match parsed with
    | Except.error msg =>
      ⟨400, [], RespBody.text
        ("\x7b\"error\":\"ParseBody failed\",\"details\":\"" ++ msg ++ "\"\x7d")⟩
    | Except.ok data =>
      match data.image with
      | none => ⟨400, [], RespBody.text "\x7b\"error\":\"No image file in request\"\x7d"⟩
      | some file =>
        let key := "test_" ++ toString ts ++ "_" ++ file.name
        match putResult with
        | Except.error msg =>
          ⟨500, [], RespBody.text
            ("\x7b\"error\":\"R2 upload failed\",\"details\":\"" ++ msg ++ "\"\x7d")⟩
        | Except.ok _ => ⟨200, [], RespBody.text key⟩

/-! ### Auxiliary lemmas -/

theorem isPre_append (p rest : List Char) : isPre p (p ++ rest) = true := by
  induction p with
  | nil => rfl
  | cons a as ih => simp [isPre, ih]

theorem hasSub_nil (l : List Char) : hasSub [] l = true := by
  cases l <;> simp [hasSub, isPre]

theorem hasSub_append (pat pre post : List Char) :
    hasSub pat (pre ++ (pat ++ post)) = true := by
  induction pre with
  | nil =>
    cases pat with
    | nil => simpa using hasSub_nil post
    | cons a as =>
      have h := isPre_append (a :: as) post
      simp only [List.cons_append] at h
      simp [hasSub, h]
  | cons c cs ih => simp [hasSub, ih]

theorem strData_append (a b : String) : (a ++ b).data = a.data ++ b.data := rfl

theorem strExt {a b : String} (h : a.data = b.data) : a = b := by
  cases a; cases b; exact congrArg String.mk h

theorem strAppend_assoc (a b c : String) : a ++ b ++ c = a ++ (b ++ c) := by
  apply strExt
  simp [strData_append]

theorem strContains_append (pat pre post : String) :
    hasSubStr pat (pre ++ (pat ++ post)) = true := by
  simpa [hasSubStr, strData_append] using hasSub_append pat.data pre.data post.data

theorem strEndsWith_append (a b : String) : strEndsWith (a ++ b) b = true := by
  simpa [strEndsWith, strData_append, List.reverse_append] using
    isPre_append b.data.reverse a.data.reverse

theorem strStartsWith_append (p s : String) : strStartsWith (p ++ s) p = true := by
  simpa [strStartsWith, strData_append] using isPre_append p.data s.data

theorem splitChar_no_sep (sep : Char) (l : List Char)
    (h : ∀ c ∈ l, (c == sep) = false) : splitChar sep l = [l] := by
  induction l with
  | nil => rfl
  | cons c cs ih =>
    have hc : (c == sep) = false := h c (by simp)
    have ihc : splitChar sep cs = [cs] := ih (fun x hx => h x (by simp [hx]))
    simp [splitChar, hc, ihc]

theorem toString_intOfNat (n : Nat) : toString ((n : Nat) : Int) = toString n := rfl

theorem writeChunks_spec (chunks : List (List Nat)) :
    ∀ (pre suffix : List Nat), suffix.length = (chunks.map List.length).sum →
      writeChunks (pre ++ suffix) pre.length chunks = pre ++ chunks.flatten := by
  induction chunks with
  | nil =>
    intro pre suffix h
    have : suffix = [] := List.eq_nil_of_length_eq_zero (by simpa using h)
    simp [writeChunks, this]
  | cons c cs ih =>
    intro pre suffix h
    have hlen : c.length ≤ suffix.length := by
      simp [List.map_cons, List.sum_cons] at h
      omega
    have hset : setRange (pre ++ suffix) pre.length c
        = (pre ++ c) ++ suffix.drop c.length := by
      simp [setRange, List.take_left, List.drop_append_eq_append_drop,
        List.append_assoc]
    have hdroplen : (suffix.drop c.length).length = (cs.map List.length).sum := by
      simp [List.length_drop]
      simp [List.map_cons, List.sum_cons] at h
      omega
    have h2 := ih (pre ++ c) (suffix.drop c.length) hdroplen
    simp only [List.append_assoc] at h2
    simp only [writeChunks, hset, List.append_assoc, List.flatten_cons]
    rw [show pre.length + c.length = (pre ++ c).length by simp]
    exact h2

theorem serveFetch_error (msg key : String) (rangeH : Option String) :
    serveFetch (fun _ _ => Except.error msg) key rangeH = Except.error msg := by
  cases rangeH with
  | none => rfl
  | some r =>
    by_cases hr : (r != "") = true
    · cases hp : parseRange r with
      | none => simp [serveFetch, hr, hp]
      | some se => obtain ⟨s, e⟩ := se; simp [serveFetch, hr, hp]
    · simp [serveFetch, hr]

theorem serveFetch_malformed
    (store : String → Option RangeReq → Except String (Option R2Obj))
    (key r : String) (hp : parseRange r = none) :
    serveFetch store key (some r) = serveFetch store key none := by
  by_cases hr : (r != "") = true
  · simp [serveFetch, hr, hp]
  · simp [serveFetch, hr]

theorem strAppend_empty (a : String) : a ++ "" = a := by
  apply strExt
  simp [strData_append]

theorem strContains_suffix (pat pre : String) :
    hasSubStr pat (pre ++ pat) = true := by
  have h := strContains_append pat pre ""
  rwa [strAppend_empty] at h

theorem serveFetch_const
    (store : String → Option RangeReq → Except String (Option R2Obj))
    (key : String) (rangeH : Option String) (obj : R2Obj)
    (h : ∀ ro, store key ro = Except.ok (some obj)) :
    ∃ st cr, serveFetch store key rangeH = Except.ok (some obj, st, cr) ∧
      (st = 200 ∨ st = 206) := by
  cases rangeH with
  | none => exact ⟨200, none, by simp [serveFetch, h none], Or.inl rfl⟩
  | some r =>
    by_cases hr : r != ""
    · cases hp : parseRange r with
      | none => exact ⟨200, none, by simp [serveFetch, hr, hp, h none], Or.inl rfl⟩
      | some se =>
        obtain ⟨start, endOpt⟩ := se
        cases endOpt with
        | none =>
          exact ⟨206, some ("bytes " ++ toString start ++ "-" ++
            toString ((obj.size : Int) - 1) ++ "/" ++ toString obj.size),
            by simp [serveFetch, hr, hp, h], Or.inr rfl⟩
        | some e =>
          by_cases he : (e != 0) = true
          · exact ⟨206, some ("bytes " ++ toString start ++ "-" ++
              toString (e : Int) ++ "/" ++ toString obj.size),
              by simp [serveFetch, hr, hp, h, he], Or.inr rfl⟩
          · exact ⟨206, some ("bytes " ++ toString start ++ "-" ++
              toString ((obj.size : Int) - 1) ++ "/" ++ toString obj.size),
              by simp [serveFetch, hr, hp, h, he], Or.inr rfl⟩
    · have hr' : r = "" := by simpa using hr
      subst hr'
      exact ⟨200, none, by simp [serveFetch, h none], Or.inl rfl⟩


/-! ### Test fixtures used by closed counterexamples and witnesses -/

/-- Small stored object used by concrete instantiations: size `n`, both
etag fields `tag`, a stored content type, and a one-chunk body. -/
def testObj (n : Nat) (tag : String) : R2Obj :=
  ⟨n, tag, tag, some "image/png", "d", true, [[0]]⟩

/-- Store that returns the same object for every key and range. -/
def constStore (o : R2Obj) : String → Option RangeReq → Except String (Option R2Obj) :=
  fun _ _ => Except.ok (some o)

/-! ### Claims -/

/-- C10: for every finite byte stream, `streamToArrayBuffer` returns a buffer
whose contents equal the concatenation, in order, of all chunks yielded by
the stream, and whose length equals the sum of the chunk lengths. -/
theorem c10_stream_to_buffer (chunks : List (List Nat)) :
    streamToArrayBuffer chunks = chunks.flatten ∧
    (streamToArrayBuffer chunks).length = (chunks.map List.length).sum := by
  have h := writeChunks_spec chunks []
    (List.replicate ((chunks.map List.length).sum) 0) (by simp)
  simp only [List.nil_append, List.length_nil] at h
  refine ⟨h, ?_⟩
  rw [show streamToArrayBuffer chunks
    = writeChunks (List.replicate ((chunks.map List.length).sum) 0) 0 chunks from rfl]
  rw [h]
  simp

/-- C9 counterexample: the second worker variant (src/src/index.ts line 483)
serves non-screenshot keys with a 30-day, non-immutable Cache-Control, not
the 1-year immutable lifetime the claim states for every served object. -/
theorem c9_cacheControl_cex :
    hasSubStr "screenshot_" "logo.png" = false ∧
    cacheControlV2 "logo.png" = "public, max-age=2592000" ∧
    cacheControlV2 "logo.png" ≠ "public, max-age=31536000, immutable" := by
  decide

/-- C9 amended: in the main worker, Cache-Control is the 1-hour lifetime iff
the key contains `screenshot_`, and every other key gets the 1-year immutable
lifetime; the second worker variant likewise keys on `screenshot_` but serves
`public, max-age=2592000` (30 days, no immutable) for all other keys. -/
theorem c9_cacheControl (key : String) :
    (getCacheControl key = "public, max-age=3600" ↔ hasSubStr "screenshot_" key = true) ∧
    (getCacheControl key = "public, max-age=31536000, immutable" ↔
      hasSubStr "screenshot_" key = false) ∧
    (cacheControlV2 key = "public, max-age=3600" ↔ hasSubStr "screenshot_" key = true) ∧
    (cacheControlV2 key = "public, max-age=2592000" ↔ hasSubStr "screenshot_" key = false) := by
  cases hs : hasSubStr "screenshot_" key
  · simp only [getCacheControl, cacheControlV2, hs]
    decide
  · simp only [getCacheControl, cacheControlV2, hs]
    decide

/-- C3 counterexample: with both the hash and the timestamp option disabled
but a width/height pair supplied, the derived key is not the original
filename: the dimension suffix is inserted before the extension. -/
theorem c3_key_identity_cex :
    deriveKey "a.png" false false "" 0 "" (some "1") (some "1") = "a_1x1.png" ∧
    deriveKey "a.png" false false "" 0 "" (some "1") (some "1") ≠ "a.png" := by
  decide

/-- C3 amended: with both options disabled, and width and height not both
supplied non-empty, the derived key equals the original filename exactly (and
the derivation is a pure function of its inputs, hence deriving twice from
the same filename yields the same key); when both width and height are
supplied, `_<width>x<height>` is inserted before the extension. -/
theorem c3_key_identity (name digest : String) (ts : Nat) (rand : String)
    (w h : Option String) (hwh : (truthyOpt w && truthyOpt h) = false) :
    deriveKey name false false digest ts rand w h = name := by
  simp [deriveKey, hwh]

/-- C3 witness: a plain filename with no options is kept unchanged. -/
theorem c3_key_identity_witness :
    (truthyOpt none && truthyOpt none) = false ∧
    deriveKey "cat.png" false false "d" 7 "r" none none = "cat.png" :=
  ⟨by decide, c3_key_identity "cat.png" "d" 7 "r" none none (by decide)⟩

/-- C1 counterexample: a filename with no dot does not get a `.png`
extension; `nameParts.pop()` returns the whole (truthy) filename, so the
filename itself becomes the extension and the basename is empty. -/
theorem c1_extension_cex :
    deriveKey "photo" true false "0123456789abcdef" 0 "r" none none
      = "_01234567.photo" ∧
    strEndsWith (deriveKey "photo" true false "0123456789abcdef" 0 "r" none none)
      ".png" = false := by
  decide

/-- C1 amended: for every non-empty filename containing no `.`, when hashing
or timestamp suffixing is enabled the derived key ends in `.` followed by
the whole original filename (which the pop-with-default treats as the
extension); the `png` default applies only when the popped final dot-segment
is empty. -/
theorem c1_extension_default (name digest rand : String) (ts : Nat)
    (useSha useTs : Bool)
    (hdot : ∀ c ∈ name.data, c ≠ '.') (hne : name ≠ "")
    (hflag : (useSha || useTs) = true) :
    strEndsWith (deriveKey name useSha useTs digest ts rand none none)
      ("." ++ name) = true := by
  have hsplit : splitChar '.' name.data = [name.data] :=
    splitChar_no_sep '.' name.data (fun c hc => beq_eq_false_iff_ne.mpr (hdot c hc))
  have hmk : String.mk name.data = name := rfl
  have hjs : jsSplit name '.' = [name] := by
    simp [jsSplit, hsplit, hmk]
  have hne' : (name == "") = false := beq_eq_false_iff_ne.mpr hne
  have hfinal : (truthyOpt (none : Option String) &&
      truthyOpt (none : Option String)) = false := by decide
  simp only [deriveKey, hjs, hflag, if_true, List.getLast?_singleton,
    List.dropLast_single, hne', hfinal, Bool.false_eq_true, if_false]
  rw [strAppend_assoc]
  exact strEndsWith_append _ _

/-- C1 witness: `photo` with hashing enabled yields a key ending in
`.photo`. -/
theorem c1_extension_default_witness :
    (true || false) = true ∧
    strEndsWith (deriveKey "photo" true false "0123456789abcdef" 0 "r" none none)
      ("." ++ "photo") = true :=
  ⟨by decide, c1_extension_default "photo" "0123456789abcdef" "r" 0 true false
    (by decide) (by decide) (by decide)⟩

/-- C4 counterexample: in the main worker the multipart payload lacking an
`image` field does not produce a 400; the property access `file.type` throws
on the missing field and `app.onError` maps the crash to a 500. -/
theorem c4_upload_missing_cex :
    (uploadMain ⟨none, none, none, none, none⟩ "d" 0 "r" (Except.ok ())).status = 500 ∧
    (uploadMain ⟨none, none, none, none, none⟩ "d" 0 "r" (Except.ok ())).status ≠ 400 := by
  decide

/-- C4 amended: on a payload without an `image` field the main upload handler
crashes and the error handler answers 500, while the debugging variant
answers 400; neither handler inspects the file content, so a present but
empty file is accepted; on success both the status is 200 and the body is
the derived key as plain text. -/
theorem c4_upload_statuses (w h tf sf : Option String) (digest : String)
    (ts : Nat) (rand : String) (pr : Except String Unit) (file : FileModel) :
    (uploadMain ⟨none, w, h, tf, sf⟩ digest ts rand pr).status = 500 ∧
    (uploadDebug true (Except.ok ⟨none, w, h, tf, sf⟩) ts pr).status = 400 ∧
    (uploadMain ⟨some file, w, h, tf, sf⟩ digest ts rand (Except.ok ())).status = 200 ∧
    respText (uploadMain ⟨some file, w, h, tf, sf⟩ digest ts rand (Except.ok ()))
      = deriveKey file.name (sf == some "true") (tf == some "true") digest ts rand w h := by
  exact ⟨rfl, rfl, rfl, rfl⟩

/-- C5 counterexample: the debugging variant reports a failed store put as a
500 whose JSON body embeds the exception message, so internal exception
detail does reach the client. -/
theorem c5_store_error_cex :
    (uploadDebug true
      (Except.ok ⟨some ⟨"a.png", "image/png", 3⟩, none, none, none, none⟩) 5
      (Except.error "SECRETDETAIL")).status = 500 ∧
    hasSubStr "SECRETDETAIL"
      (respText (uploadDebug true
        (Except.ok ⟨some ⟨"a.png", "image/png", 3⟩, none, none, none, none⟩) 5
        (Except.error "SECRETDETAIL"))) = true := by
  decide

/-- C5 amended: a store exception in the GET or HEAD serve handler, or in the
main upload handler, yields the fixed generic 500 response whose body does
not depend on the exception; the debugging upload variant instead answers
500 with the exception message embedded in the body. -/
theorem c5_store_error_generic (msg key : String) (req : GetReq)
    (inm w h tf sf : Option String) (file : FileModel) (digest : String)
    (ts : Nat) (rand : String) :
    serveGet (fun _ _ => Except.error msg) key req = internalErrorResponse ∧
    serveHead (fun _ => Except.error msg) key inm = internalErrorResponse ∧
    uploadMain ⟨some file, w, h, tf, sf⟩ digest ts rand (Except.error msg)
      = internalErrorResponse ∧
    (uploadDebug true (Except.ok ⟨some file, w, h, tf, sf⟩) ts
      (Except.error msg)).status = 500 ∧
    hasSubStr msg (respText (uploadDebug true
      (Except.ok ⟨some file, w, h, tf, sf⟩) ts (Except.error msg))) = true := by
  refine ⟨?_, rfl, rfl, rfl, ?_⟩
  · simp [serveGet, serveFetch_error]
  · simp only [uploadDebug, respText]
    rw [strAppend_assoc]
    exact strContains_append msg
      "\x7b\"error\":\"R2 upload failed\",\"details\":\"" "\"\x7d"

/-- C2 counterexample: a Range header with the explicit end value 0 does not
produce its given end in Content-Range; `end || totalSize - 1` treats the
parsed 0 as absent, so `bytes=0-0` against a 10-byte object yields
`bytes 0-9/10` instead of `bytes 0-0/10` (and an unbounded store fetch). -/
theorem c2_content_range_cex :
    (serveGet (constStore (testObj 10 "E")) "a.png"
      ⟨some "bytes=0-0", none, none, false⟩).status = 206 ∧
    headerVal (serveGet (constStore (testObj 10 "E")) "a.png"
      ⟨some "bytes=0-0", none, none, false⟩) "Content-Range"
      = some "bytes 0-9/10" ∧
    some "bytes 0-9/10" ≠ some ("bytes " ++ "0" ++ "-" ++ "0" ++ "/" ++ "10") := by
  decide

/-- C2 amended: for a Range header parsing to start and a non-zero explicit
end e, when the ranged store fetch (requesting e - start + 1 bytes) returns
an object with a body and no If-None-Match short-circuit applies, the
response has status 206 and Content-Range exactly
`bytes start-e/totalSize`, with totalSize the reported full size of the
returned object; a parsed end of 0 is treated as if the end were absent. -/
theorem c2_content_range
    (store : String → Option RangeReq → Except String (Option R2Obj))
    (key r : String) (start e : Nat) (obj : R2Obj) (inm ua : Option String)
    (dl : Bool)
    (hne : r ≠ "")
    (hp : parseRange r = some (start, some e))
    (he : e ≠ 0)
    (hs : store key (some ⟨start, some ((e : Int) - (start : Int) + 1)⟩)
      = Except.ok (some obj))
    (hb : obj.hasBody = true)
    (hm : (truthyOpt inm && (inm.getD "" == etagOf obj)) = false) :
    (serveGet store key ⟨some r, inm, ua, dl⟩).status = 206 ∧
    headerVal (serveGet store key ⟨some r, inm, ua, dl⟩) "Content-Range"
      = some ("bytes " ++ toString start ++ "-" ++ toString e ++ "/" ++
        toString obj.size) := by
  have hr : (r != "") = true := bne_iff_ne.mpr hne
  have he' : (e != 0) = true := bne_iff_ne.mpr he
  have hfetch : serveFetch store key (some r)
      = Except.ok (some obj, 206,
        some ("bytes " ++ toString start ++ "-" ++ toString (e : Int) ++ "/" ++
          toString obj.size)) := by
    simp [serveFetch, hr, hp, he', hs]
  rw [toString_intOfNat] at hfetch
  simp [serveGet, hfetch, hm, hb, headerVal, List.find?]

/-- C2 witness: `bytes=3-7` against a 100-byte object yields 206 and
`bytes 3-7/100`. -/
theorem c2_content_range_witness :
    parseRange "bytes=3-7" = some (3, some 7) ∧
    (serveGet (constStore (testObj 100 "E")) "a.png"
      ⟨some "bytes=3-7", none, none, false⟩).status = 206 ∧
    headerVal (serveGet (constStore (testObj 100 "E")) "a.png"
      ⟨some "bytes=3-7", none, none, false⟩) "Content-Range"
      = some ("bytes " ++ toString 3 ++ "-" ++ toString 7 ++ "/" ++ toString 100) :=
  ⟨by decide,
    (c2_content_range (constStore (testObj 100 "E")) "a.png" "bytes=3-7" 3 7
      (testObj 100 "E") none none false (by decide) (by decide) (by decide)
      rfl rfl (by decide)).1,
    (c2_content_range (constStore (testObj 100 "E")) "a.png" "bytes=3-7" 3 7
      (testObj 100 "E") none none false (by decide) (by decide) (by decide)
      rfl rfl (by decide)).2⟩

/-- C7: a GET whose Range header fails the `bytes=(\d+)-(\d*)` pattern is
handled exactly as if no Range header were present, and when the full fetch
returns an object with a body and no If-None-Match short-circuit applies the
status is 200, not an error. -/
theorem c7_malformed_range
    (store : String → Option RangeReq → Except String (Option R2Obj))
    (key r : String) (inm ua : Option String) (dl : Bool) (obj : R2Obj)
    (hp : parseRange r = none)
    (hobj : store key none = Except.ok (some obj))
    (hb : obj.hasBody = true)
    (hm : (truthyOpt inm && (inm.getD "" == etagOf obj)) = false) :
    serveGet store key ⟨some r, inm, ua, dl⟩ = serveGet store key ⟨none, inm, ua, dl⟩ ∧
    (serveGet store key ⟨some r, inm, ua, dl⟩).status = 200 := by
  have hfetch := serveFetch_malformed store key r hp
  constructor
  · simp only [serveGet, hfetch]
  · have hfull : serveFetch store key none = Except.ok (some obj, 200, none) := by
      simp [serveFetch, hobj]
    simp [serveGet, hfetch, hfull, hm, hb]

/-- C7 witness: `Range: items=0-5` behaves like no Range header and yields
status 200 on an existing object. -/
theorem c7_malformed_range_witness :
    parseRange "items=0-5" = none ∧
    serveGet (constStore (testObj 10 "E")) "a.png"
        ⟨some "items=0-5", none, none, false⟩
      = serveGet (constStore (testObj 10 "E")) "a.png" ⟨none, none, none, false⟩ ∧
    (serveGet (constStore (testObj 10 "E")) "a.png"
      ⟨some "items=0-5", none, none, false⟩).status = 200 :=
  ⟨by decide,
    (c7_malformed_range (constStore (testObj 10 "E")) "a.png" "items=0-5"
      none none false (testObj 10 "E") (by decide) rfl rfl (by decide)).1,
    (c7_malformed_range (constStore (testObj 10 "E")) "a.png" "items=0-5"
      none none false (testObj 10 "E") (by decide) rfl rfl (by decide)).2⟩

/-- C6 counterexample: the truthiness guard `if (ifNoneMatch && ...)` treats
a present-but-empty If-None-Match header as absent, so a request whose
If-None-Match equals the entity tag the code resolved (here the empty
string, from a store object with empty validator fields) is served with 200
instead of 304. -/
theorem c6_not_modified_cex :
    (⟨none, some "", none, false⟩ : GetReq).inm
      = some (etagOf ⟨10, "", "", some "image/png", "d", true, [[1]]⟩) ∧
    (serveGet (constStore ⟨10, "", "", some "image/png", "d", true, [[1]]⟩)
      "k.png" ⟨none, some "", none, false⟩).status = 200 ∧
    (200 : Nat) ≠ 304 := by
  decide

/-- C6 amended: for GET and HEAD against an existing object, the response is
304 iff the If-None-Match header is present with a non-empty value that is
string-equal to the resolved entity tag (`httpEtag` when non-empty, else
`etag`); on a match the response is exactly status 304 with an empty body
and an empty header set, so neither Content-Type nor Content-Length is
carried. -/
theorem c6_not_modified
    (store : String → Option RangeReq → Except String (Option R2Obj))
    (headStore : String → Except String (Option R2Obj))
    (key : String) (obj : R2Obj) (req : GetReq)
    (hs : ∀ ro, store key ro = Except.ok (some obj))
    (hh : headStore key = Except.ok (some obj)) :
    ((serveGet store key req).status = 304 ↔
      (truthyOpt req.inm && (req.inm.getD "" == etagOf obj)) = true) ∧
    ((truthyOpt req.inm && (req.inm.getD "" == etagOf obj)) = true →
      serveGet store key req = ⟨304, [], RespBody.empty⟩ ∧
      headerVal (serveGet store key req) "Content-Type" = none ∧
      headerVal (serveGet store key req) "Content-Length" = none) ∧
    ((serveHead headStore key req.inm).status = 304 ↔
      (truthyOpt req.inm && (req.inm.getD "" == etagOf obj)) = true) ∧
    ((truthyOpt req.inm && (req.inm.getD "" == etagOf obj)) = true →
      serveHead headStore key req.inm = ⟨304, [], RespBody.empty⟩) := by
  obtain ⟨st, cr, hf, hst⟩ := serveFetch_const store key req.rangeH obj hs
  by_cases hm : (truthyOpt req.inm && (req.inm.getD "" == etagOf obj)) = true
  · refine ⟨by simp [serveGet, hf, hm], ?_, by simp [serveHead, hh, hm], ?_⟩
    · intro _
      refine ⟨?_, ?_, ?_⟩ <;> simp [serveGet, hf, hm, headerVal]
    · intro _
      simp [serveHead, hh, hm]
  · have hm' : (truthyOpt req.inm && (req.inm.getD "" == etagOf obj)) = false := by
      revert hm
      cases truthyOpt req.inm && (req.inm.getD "" == etagOf obj) <;> simp
    refine ⟨?_, fun hcon => absurd hcon hm, ?_, fun hcon => absurd hcon hm⟩
    · cases hbody : obj.hasBody
      · simp [serveGet, hf, hm', hbody, notFoundResponse, hm]
      · rcases hst with h200 | h206 <;> subst st <;>
          simp [serveGet, hf, hm', hbody, hm]
    · simp [serveHead, hh, hm', hm]

/-- C6 witness: a matching non-empty If-None-Match yields 304 on GET and the
bare 304 response on HEAD. -/
theorem c6_not_modified_witness :
    (truthyOpt (some "E") &&
      ((some "E" : Option String).getD "" == etagOf (testObj 10 "E"))) = true ∧
    (serveGet (constStore (testObj 10 "E")) "k.png"
      ⟨none, some "E", none, false⟩).status = 304 ∧
    serveHead (fun _ => Except.ok (some (testObj 10 "E"))) "k.png" (some "E")
      = ⟨304, [], RespBody.empty⟩ :=
  have h := c6_not_modified (constStore (testObj 10 "E"))
    (fun _ => Except.ok (some (testObj 10 "E"))) "k.png" (testObj 10 "E")
    ⟨none, some "E", none, false⟩ (fun _ => rfl) rfl
  ⟨by decide, h.1.mpr (by decide), h.2.2.2 (by decide)⟩

theorem att_starts (s : String) :
    strStartsWith ("attachment; filename=\"" ++ s) "attachment" = true := rfl

theorem inl_starts (s : String) :
    strStartsWith ("inline; filename=\"" ++ s) "inline" = true := rfl

theorem att_not_inl (s : String) :
    strStartsWith ("attachment; filename=\"" ++ s) "inline" = false := rfl

theorem inl_not_att (s : String) :
    strStartsWith ("inline; filename=\"" ++ s) "attachment" = false := rfl

theorem cdv_contains (disp fn : String) :
    hasSubStr ("filename=\"" ++ fn ++ "\"")
      (disp ++ "; filename=\"" ++ fn ++ "\"; filename*=UTF-8" ++ squote ++
        squote ++ encodeURIComponent fn) = true := by
  have d1 : ("; filename=\"" : String).data
      = ("; " : String).data ++ ("filename=\"" : String).data := by decide
  have d2 : ("\"; filename*=UTF-8" : String).data
      = ("\"" : String).data ++ ("; filename*=UTF-8" : String).data := by decide
  have hv : disp ++ "; filename=\"" ++ fn ++ "\"; filename*=UTF-8" ++ squote ++
      squote ++ encodeURIComponent fn
      = (disp ++ "; ") ++ (("filename=\"" ++ fn ++ "\"") ++
        ("; filename*=UTF-8" ++ squote ++ squote ++ encodeURIComponent fn)) := by
    apply strExt
    simp [strData_append, d1, d2]
  rw [hv]
  exact strContains_append _ _ _

theorem cdv_contains2 (disp fn : String) :
    hasSubStr ("filename*=UTF-8" ++ squote ++ squote ++ encodeURIComponent fn)
      (disp ++ "; filename=\"" ++ fn ++ "\"; filename*=UTF-8" ++ squote ++
        squote ++ encodeURIComponent fn) = true := by
  have d3 : ("\"; filename*=UTF-8" : String).data
      = ("\"; " : String).data ++ ("filename*=UTF-8" : String).data := by decide
  have hv : disp ++ "; filename=\"" ++ fn ++ "\"; filename*=UTF-8" ++ squote ++
      squote ++ encodeURIComponent fn
      = (disp ++ "; filename=\"" ++ fn ++ "\"; ") ++
        ("filename*=UTF-8" ++ squote ++ squote ++ encodeURIComponent fn) := by
    apply strExt
    simp [strData_append, d3]
  rw [hv]
  exact strContains_suffix _ _

theorem cdv_props (key : String) (dl : Bool) (ua : String)
    (hseg : (jsSplit key '/').getLastD "" ≠ "") :
    (strStartsWith (contentDispositionValue key dl ua) "attachment" = true ↔
      (dl = true ∨ (hasSubStr "screenshot_" key = true ∧ isMobileUA ua = true))) ∧
    (strStartsWith (contentDispositionValue key dl ua) "inline" = true ↔
      ¬(dl = true ∨ (hasSubStr "screenshot_" key = true ∧ isMobileUA ua = true))) ∧
    hasSubStr ("filename=\"" ++ (jsSplit key '/').getLastD "" ++ "\"")
      (contentDispositionValue key dl ua) = true ∧
    hasSubStr ("filename*=UTF-8" ++ squote ++ squote ++
        encodeURIComponent ((jsSplit key '/').getLastD ""))
      (contentDispositionValue key dl ua) = true := by
  have hfn : dispFilename key = (jsSplit key '/').getLastD "" := by
    have h := beq_eq_false_iff_ne.mpr hseg
    simp only [dispFilename, h, Bool.false_eq_true, if_false]
  refine ⟨?_, ?_, ?_, ?_⟩
  · cases hdl : dl <;> cases hsc : hasSubStr "screenshot_" key <;>
      cases hmb : isMobileUA ua <;>
      simp [contentDispositionValue, hsc, hmb, strAppend_assoc, att_starts,
        inl_starts, att_not_inl, inl_not_att]
  · cases hdl : dl <;> cases hsc : hasSubStr "screenshot_" key <;>
      cases hmb : isMobileUA ua <;>
      simp [contentDispositionValue, hsc, hmb, strAppend_assoc, att_starts,
        inl_starts, att_not_inl, inl_not_att]
  · rw [← hfn]
    simp only [contentDispositionValue]
    exact cdv_contains _ _
  · rw [← hfn]
    simp only [contentDispositionValue]
    exact cdv_contains2 _ _

/-- C8: on a successful GET (object fetched, body present, no If-None-Match
short-circuit) whose key has a non-empty last path segment, the
Content-Disposition header value starts with `attachment` iff the
download flag is set or the key contains `screenshot_` and the User-Agent
matches iPhone/iPad/iPod/Android case-insensitively, starts with `inline`
otherwise, and contains both a plain `filename="name"` parameter and an
RFC 5987 `filename*` parameter with the percent-encoded name, where name is
the last path segment of the key. -/
theorem c8_disposition
    (store : String → Option RangeReq → Except String (Option R2Obj))
    (key : String) (obj : R2Obj) (rangeH inm ua : Option String) (dl : Bool)
    (hs : ∀ ro, store key ro = Except.ok (some obj))
    (hb : obj.hasBody = true)
    (hm : (truthyOpt inm && (inm.getD "" == etagOf obj)) = false)
    (hseg : (jsSplit key '/').getLastD "" ≠ "") :
    headerVal (serveGet store key ⟨rangeH, inm, ua, dl⟩) "Content-Disposition"
      = some (contentDispositionValue key dl (ua.getD "")) ∧
    (strStartsWith (contentDispositionValue key dl (ua.getD "")) "attachment" = true ↔
      (dl = true ∨ (hasSubStr "screenshot_" key = true ∧
        isMobileUA (ua.getD "") = true))) ∧
    (strStartsWith (contentDispositionValue key dl (ua.getD "")) "inline" = true ↔
      ¬(dl = true ∨ (hasSubStr "screenshot_" key = true ∧
        isMobileUA (ua.getD "") = true))) ∧
    hasSubStr ("filename=\"" ++ (jsSplit key '/').getLastD "" ++ "\"")
      (contentDispositionValue key dl (ua.getD "")) = true ∧
    hasSubStr ("filename*=UTF-8" ++ squote ++ squote ++
        encodeURIComponent ((jsSplit key '/').getLastD ""))
      (contentDispositionValue key dl (ua.getD "")) = true := by
  obtain ⟨st, cr, hf, _⟩ := serveFetch_const store key rangeH obj hs
  refine ⟨?_, cdv_props key dl (ua.getD "") hseg⟩
  cases hcr : cr with
  | none => simp [serveGet, hf, hcr, hm, hb, headerVal]
  | some s => simp [serveGet, hf, hcr, hm, hb, headerVal]

/-- C8 witness: a screenshot key served to a mobile User-Agent without the
download flag gets an attachment disposition carrying both filename
parameters for the last path segment. -/
theorem c8_disposition_witness :
    ((jsSplit "dir/screenshot_1.png" '/').getLastD "" ≠ "") ∧
    headerVal (serveGet (constStore (testObj 10 "E")) "dir/screenshot_1.png"
        ⟨none, none, some "iPhone Safari", false⟩) "Content-Disposition"
      = some (contentDispositionValue "dir/screenshot_1.png" false
        ((some "iPhone Safari" : Option String).getD "")) ∧
    (strStartsWith (contentDispositionValue "dir/screenshot_1.png" false
        ((some "iPhone Safari" : Option String).getD "")) "attachment" = true ↔
      (false = true ∨ (hasSubStr "screenshot_" "dir/screenshot_1.png" = true ∧
        isMobileUA ((some "iPhone Safari" : Option String).getD "") = true))) :=
  have h := c8_disposition (constStore (testObj 10 "E")) "dir/screenshot_1.png"
    (testObj 10 "E") none none (some "iPhone Safari") false (fun _ => rfl) rfl
    (by decide) (by decide)
  ⟨by decide, h.1, h.2.1⟩
